import Mathlib

/-!
Verification of the donation analysis step of the Monthly Donation Report
Generator (src/donation_report_generator.py, method `analyze_donations`).

Modelling conventions of the shallow embedding:
* A donation record is a Python dict with optional keys; we model the four
  keys the analyzer reads as `Option`-valued fields (a `none` field models
  the key being absent from the dict).
* Python float arithmetic is modelled as exact rational arithmetic (`Rat`).
* A Python value passed to `float(...)` either converts to a number or makes
  `float` raise; `AmountVal` abstracts amount values by that behaviour:
  `AmountVal.ofRat q` is any value `float` converts to `q` (numbers, numeric
  strings), `AmountVal.nonNumeric` is any value `float` raises on.
* A raising execution of `analyze_donations` is modelled as `Option.none`;
  a normal return is `some summary`.
* Python dicts preserve insertion order, so `daily_revenue` and
  `supporter_totals` are modelled as association lists in insertion order,
  updated in place and extended at the end on a fresh key.
* Python `sorted(..., reverse=True)` is a stable sort: it orders by the key
  descending and keeps the original relative order of elements whose keys
  compare equal.  `sortDesc` below is a stable insertion sort with exactly
  that semantics.
-/

/-- Abstraction of a Python value stored under the `amount` key, classified
by the behaviour of `float(value)`: either it converts to a rational or
`float` raises. -/
inductive AmountVal where
  | ofRat (q : Rat)
  | nonNumeric
deriving DecidableEq, Repr

/-- A donation record: the four dict keys read by `analyze_donations`,
each possibly absent. -/
structure Record where
  supporter_id : Option Nat := none
  supporter_name : Option String := none
  amount : Option AmountVal := none
  created_at : Option String := none
deriving DecidableEq, Repr

/-- The per-supporter aggregate stored in `supporter_totals`:
`{'name': ..., 'total': ..., 'count': ...}`. -/
structure SupporterData where
  name : String
  total : Rat
  count : Nat
deriving DecidableEq, Repr

/-- An entry of the `top_supporters` list in the returned summary. -/
structure TopSupporter where
  name : String
  total_donated : Rat
  donation_count : Nat
deriving DecidableEq, Repr

/-- The dict returned by `analyze_donations`. -/
structure Summary where
  total_supporters : Nat
  unique_supporters : Nat
  total_donations : Nat
  total_revenue : Rat
  average_donation : Rat
  top_supporters : List TopSupporter
  daily_revenue : List (String × Rat)
deriving DecidableEq, Repr

/-- `float(donation.get('amount', 0))`: an absent amount defaults to `0`,
a convertible value yields its rational, a non-numeric value raises
(modelled as `none`). -/
def floatAmount : Option AmountVal → Option Rat
  | none => some 0
  | some (.ofRat q) => some q
  | some .nonNumeric => none

/-- `created_at.split("T")[0]`: the part of the string before the first
`T`, or the whole string when it contains no `T`. -/
def dateKeyOf (s : String) : String :=
  ⟨s.data.takeWhile (fun c => c ≠ 'T')⟩

/-- The default supporter name `f-string "Supporter {supporter_id}"`;
Python renders an absent id (`None`) as the text `None`. -/
def placeholderName : Option Nat → String
  | some n => "Supporter " ++ toString n
  | none => "Supporter None"

/-- `daily_revenue[date_str] += amount` with creation on first encounter:
update the entry in place if the key is present, otherwise append the new
key at the end (Python dict insertion order). -/
def addDaily : List (String × Rat) → String → Rat → List (String × Rat)
  | [], k, a => [(k, a)]
  | (k', v) :: rest, k, a =>
    if k' = k then (k', v + a) :: rest else (k', v) :: addDaily rest k a

/-- First loop of `analyze_donations`: accumulates `supporter_ids`,
`donation_amounts` and `daily_revenue` over the records, in order;
fails (raises) as soon as `float` fails on an amount. -/
def pass1Aux : List Record → List (Option Nat) → List Rat →
    List (String × Rat) → Option (List (Option Nat) × List Rat × List (String × Rat))
  | [], ids, amts, daily => some (ids, amts, daily)
  | d :: rest, ids, amts, daily =>
    match floatAmount d.amount with
    | none => none
    | some amount =>
      let created := d.created_at.getD ""
      let daily' := if created ≠ "" then addDaily daily (dateKeyOf created) amount else daily
      pass1Aux rest (ids ++ [d.supporter_id]) (amts ++ [amount]) daily'

/-- `supporter_totals[supporter_id]` update: add to `total` and bump
`count` when the key exists, otherwise append a fresh aggregate with the
given name, `total = amount`, `count = 1`. -/
def addSupporter : List (Option Nat × SupporterData) → Option Nat → String → Rat →
    List (Option Nat × SupporterData)
  | [], id, nm, a => [(id, ⟨nm, a, 1⟩)]
  | (k, dt) :: rest, id, nm, a =>
    if k = id then (k, ⟨dt.name, dt.total + a, dt.count + 1⟩) :: rest
    else (k, dt) :: addSupporter rest id nm a

/-- Second loop of `analyze_donations`: builds `supporter_totals` in
first-encounter order; fails (raises) as soon as `float` fails on an
amount. -/
def pass2Aux : List Record → List (Option Nat × SupporterData) →
    Option (List (Option Nat × SupporterData))
  | [], tot => some tot
  | d :: rest, tot =>
    match floatAmount d.amount with
    | none => none
    | some amount =>
      pass2Aux rest
        (addSupporter tot d.supporter_id
          (d.supporter_name.getD (placeholderName d.supporter_id)) amount)

/-- Stable insertion of one keyed aggregate into a list sorted by `total`
descending: the new element goes before the first element whose `total`
is not larger, so among equal totals the earlier-processed element stays
first. -/
def insertDesc (x : Option Nat × SupporterData) :
    List (Option Nat × SupporterData) → List (Option Nat × SupporterData)
  | [] => [x]
  | y :: ys => if x.2.total < y.2.total then y :: insertDesc x ys else x :: y :: ys

/-- `sorted(supporter_totals.items(), key=lambda x: x[1]['total'], reverse=True)`:
stable sort by `total` descending. -/
def sortDesc : List (Option Nat × SupporterData) → List (Option Nat × SupporterData)
  | [] => []
  | x :: xs => insertDesc x (sortDesc xs)

/-- Projection of a supporter aggregate to a `top_supporters` entry. -/
def projTop (x : Option Nat × SupporterData) : TopSupporter :=
  ⟨x.2.name, x.2.total, x.2.count⟩

/-- The `analyze_donations` method of `DonationReportGenerator`
(src/donation_report_generator.py lines 58-142), as a function from the
record list to `Option Summary`; `none` models a raising execution. -/
def analyze_donations (donations : List Record) : Option Summary :=
  if donations.isEmpty then
    some { total_supporters := 0, unique_supporters := 0, total_donations := 0,
           total_revenue := 0, average_donation := 0, top_supporters := [],
           daily_revenue := [] }
  else
    match pass1Aux donations [] [] [], pass2Aux donations [] with
    | some (supporter_ids, donation_amounts, daily_revenue), some supporter_totals =>
      some { total_supporters := supporter_ids.length,
             unique_supporters :=
               if supporter_ids.isEmpty then 0 else supporter_ids.dedup.length,
             total_donations := donations.length,
             total_revenue := donation_amounts.sum,
             average_donation :=
               if donations.length > 0
               then donation_amounts.sum / (donations.length : Rat) else 0,
             top_supporters := ((sortDesc supporter_totals).take 10).map projTop,
             daily_revenue := daily_revenue }
    | _, _ => none

/-- First-match lookup in the `supporter_totals` association list. -/
def lookupS : List (Option Nat × SupporterData) → Option Nat → Option SupporterData
  | [], _ => none
  | (k, dt) :: rest, id => if k = id then some dt else lookupS rest id

/-- First-match lookup in the `daily_revenue` association list. -/
def lookupDaily : List (String × Rat) → String → Option Rat
  | [], _ => none
  | (k', v) :: rest, k => if k' = k then some v else lookupDaily rest k

/-- The coerced amount of a record, as a total function: the value
`float(donation.get('amount', 0))` takes whenever it does not raise. -/
def amountOf (r : Record) : Rat :=
  (floatAmount r.amount).getD 0

/-- The date key a record contributes to `daily_revenue`, if any: the code
reads `donation.get('created_at', '')` and only groups when that string is
non-empty. -/
def dateKeyOpt (r : Record) : Option String :=
  if r.created_at.getD "" = "" then none else some (dateKeyOf (r.created_at.getD ""))

/-- The date keys contributed by a record list, with multiplicity, in
input order. -/
def dateKeys (ds : List Record) : List String :=
  ds.filterMap dateKeyOpt

/-- Sum of coerced amounts of the records grouped under date key `k`. -/
def sumForDate (ds : List Record) (k : String) : Rat :=
  ((ds.filter (fun r => decide (dateKeyOpt r = some k))).map amountOf).sum

/-- Sum of coerced amounts of the records whose `supporter_id` field is
`k`. -/
def sumForId (ds : List Record) (k : Option Nat) : Rat :=
  ((ds.filter (fun r => decide (r.supporter_id = k))).map amountOf).sum

/-- The elements of `l` not in `seen`, keeping only the first occurrence of
each, in order of first occurrence (dict insertion order). -/
def dedupFirstAux {α : Type} [DecidableEq α] (seen : List α) : List α → List α
  | [] => []
  | a :: l => if a ∈ seen then dedupFirstAux seen l else a :: dedupFirstAux (a :: seen) l

/-- Replace an absent amount by the number `0`, leaving present amounts
(numeric or not) unchanged. -/
def fillAmount0 (r : Record) : Record :=
  match r.amount with
  | none => { r with amount := some (.ofRat 0) }
  | some _ => r

/-- The `count` stored for key `k` in `supporter_totals`, or `0` when the
key is absent. -/
def countOfKey (tot : List (Option Nat × SupporterData)) (k : Option Nat) : Nat :=
  match lookupS tot k with
  | some d => d.count
  | none => 0

/-- The `total` stored for key `k` in `supporter_totals`, or `0` when the
key is absent. -/
def totalOfKey (tot : List (Option Nat × SupporterData)) (k : Option Nat) : Rat :=
  match lookupS tot k with
  | some d => d.total
  | none => 0

/-- `float` raises exactly on the non-numeric amount values. -/
theorem floatAmount_eq_none_iff {a : Option AmountVal} :
    floatAmount a = none ↔ a = some .nonNumeric := by
  cases a with
  | none => simp [floatAmount]
  | some v => cases v <;> simp [floatAmount]

/-- When `float` succeeds its value is the coerced amount. -/
theorem amountOf_eq {r : Record} {q : Rat} (h : floatAmount r.amount = some q) :
    amountOf r = q := by
  simp [amountOf, h]

/-- `addDaily` keeps the key order and appends a fresh key at the end. -/
theorem addDaily_keys (d : List (String × Rat)) (k : String) (a : Rat) :
    (addDaily d k a).map Prod.fst =
      if k ∈ d.map Prod.fst then d.map Prod.fst else d.map Prod.fst ++ [k] := by
  induction d with
  | nil => simp [addDaily]
  | cons hd tl ih =>
    obtain ⟨k', v⟩ := hd
    by_cases h : k' = k
    · subst h
      simp [addDaily]
    · by_cases hm : k ∈ tl.map Prod.fst <;>
        simp [addDaily, h, ih, hm, Ne.symm h]

/-- Looking up the just-updated key of `addDaily`. -/
theorem lookupDaily_addDaily_self (d : List (String × Rat)) (k : String) (a : Rat) :
    lookupDaily (addDaily d k a) k = some ((lookupDaily d k).getD 0 + a) := by
  induction d with
  | nil => simp [addDaily, lookupDaily]
  | cons hd tl ih =>
    obtain ⟨k', v⟩ := hd
    by_cases h : k' = k
    · subst h
      simp [addDaily, lookupDaily]
    · simp [addDaily, lookupDaily, h, ih]

/-- `addDaily` leaves other keys untouched. -/
theorem lookupDaily_addDaily_ne (d : List (String × Rat)) {k k' : String}
    (h : k' ≠ k) (a : Rat) :
    lookupDaily (addDaily d k a) k' = lookupDaily d k' := by
  induction d with
  | nil => simp [addDaily, lookupDaily, Ne.symm h]
  | cons hd tl ih =>
    obtain ⟨k₀, v⟩ := hd
    by_cases h0 : k₀ = k
    · subst h0
      simp [addDaily, lookupDaily, Ne.symm h]
    · simp [addDaily, lookupDaily, h0, ih]

/-- `addDaily` adds the amount to the total of the stored values. -/
theorem addDaily_snd_sum (d : List (String × Rat)) (k : String) (a : Rat) :
    ((addDaily d k a).map Prod.snd).sum = (d.map Prod.snd).sum + a := by
  induction d with
  | nil => simp [addDaily]
  | cons hd tl ih =>
    obtain ⟨k', v⟩ := hd
    by_cases h : k' = k
    · subst h
      simp [addDaily]
      ring
    · simp [addDaily, h, ih]
      ring

/-- A daily lookup misses exactly when the key is absent. -/
theorem lookupDaily_eq_none_iff (d : List (String × Rat)) (k : String) :
    lookupDaily d k = none ↔ k ∉ d.map Prod.fst := by
  induction d with
  | nil => simp [lookupDaily]
  | cons hd tl ih =>
    obtain ⟨k', v⟩ := hd
    by_cases h : k' = k
    · subst h
      simp [lookupDaily]
    · simp [lookupDaily, h, ih, Ne.symm h]

/-- `addSupporter` keeps the key order and appends a fresh key at the
end. -/
theorem addSupporter_keys (tot : List (Option Nat × SupporterData)) (id : Option Nat)
    (nm : String) (a : Rat) :
    (addSupporter tot id nm a).map Prod.fst =
      if id ∈ tot.map Prod.fst then tot.map Prod.fst else tot.map Prod.fst ++ [id] := by
  induction tot with
  | nil => simp [addSupporter]
  | cons hd tl ih =>
    obtain ⟨k, dt⟩ := hd
    by_cases h : k = id
    · subst h
      simp [addSupporter]
    · by_cases hm : id ∈ tl.map Prod.fst <;>
        simp [addSupporter, h, ih, hm, Ne.symm h]

/-- Looking up the just-updated key of `addSupporter`: an existing
aggregate gets the amount added and the count bumped with the name kept; a
fresh key gets the given name, the amount and count one. -/
theorem lookupS_addSupporter_self (tot : List (Option Nat × SupporterData))
    (id : Option Nat) (nm : String) (a : Rat) :
    lookupS (addSupporter tot id nm a) id =
      some (match lookupS tot id with
            | some d => ⟨d.name, d.total + a, d.count + 1⟩
            | none => ⟨nm, a, 1⟩) := by
  induction tot with
  | nil => simp [addSupporter, lookupS]
  | cons hd tl ih =>
    obtain ⟨k, dt⟩ := hd
    by_cases h : k = id
    · subst h
      simp [addSupporter, lookupS]
    · simp [addSupporter, lookupS, h, ih]

/-- `addSupporter` leaves other keys untouched. -/
theorem lookupS_addSupporter_ne (tot : List (Option Nat × SupporterData))
    {id k : Option Nat} (h : k ≠ id) (nm : String) (a : Rat) :
    lookupS (addSupporter tot id nm a) k = lookupS tot k := by
  induction tot with
  | nil => simp [addSupporter, lookupS, Ne.symm h]
  | cons hd tl ih =>
    obtain ⟨k₀, dt⟩ := hd
    by_cases h0 : k₀ = id
    · subst h0
      simp [addSupporter, lookupS, Ne.symm h]
    · simp [addSupporter, lookupS, h0, ih]

/-- A supporter lookup misses exactly when the key is absent. -/
theorem lookupS_eq_none_iff (tot : List (Option Nat × SupporterData)) (k : Option Nat) :
    lookupS tot k = none ↔ k ∉ tot.map Prod.fst := by
  induction tot with
  | nil => simp [lookupS]
  | cons hd tl ih =>
    obtain ⟨k', dt⟩ := hd
    by_cases h : k' = k
    · subst h
      simp [lookupS]
    · simp [lookupS, h, ih, Ne.symm h]

/-- Membership in the first-seen dedup: the new elements of `l`. -/
theorem mem_dedupFirstAux {α : Type} [DecidableEq α] (seen l : List α) (x : α) :
    x ∈ dedupFirstAux seen l ↔ x ∈ l ∧ x ∉ seen := by
  induction l generalizing seen with
  | nil => simp [dedupFirstAux]
  | cons a l ih =>
    by_cases h : a ∈ seen
    · rw [dedupFirstAux, if_pos h, ih]
      constructor
      · rintro ⟨hx, hs⟩
        exact ⟨List.mem_cons_of_mem a hx, hs⟩
      · rintro ⟨hx, hs⟩
        rcases List.mem_cons.1 hx with rfl | hx2
        · exact absurd h hs
        · exact ⟨hx2, hs⟩
    · rw [dedupFirstAux, if_neg h]
      constructor
      · intro hx
        rcases List.mem_cons.1 hx with rfl | hx2
        · exact ⟨List.mem_cons_self x l, h⟩
        · rw [ih] at hx2
          obtain ⟨hl, hs⟩ := hx2
          exact ⟨List.mem_cons_of_mem a hl, fun hx3 => hs (List.mem_cons_of_mem a hx3)⟩
      · rintro ⟨hx, hs⟩
        rcases List.mem_cons.1 hx with rfl | hx2
        · exact List.mem_cons_self x (dedupFirstAux (x :: seen) l)
        · by_cases hxa : x = a
          · subst hxa
            exact List.mem_cons_self x (dedupFirstAux (x :: seen) l)
          · apply List.mem_cons_of_mem
            rw [ih]
            refine ⟨hx2, ?_⟩
            intro hx3
            rcases List.mem_cons.1 hx3 with rfl | hx4
            · exact hxa rfl
            · exact hs hx4

/-- The first-seen dedup depends on `seen` only through membership. -/
theorem dedupFirstAux_congr {α : Type} [DecidableEq α] {s₁ s₂ : List α}
    (h : ∀ x, x ∈ s₁ ↔ x ∈ s₂) (l : List α) :
    dedupFirstAux s₁ l = dedupFirstAux s₂ l := by
  induction l generalizing s₁ s₂ with
  | nil => rfl
  | cons a l ih =>
    by_cases ha : a ∈ s₁
    · rw [dedupFirstAux, dedupFirstAux, if_pos ha, if_pos ((h a).1 ha), ih h]
    · rw [dedupFirstAux, dedupFirstAux, if_neg ha, if_neg (fun hx => ha ((h a).2 hx))]
      have h2 : ∀ x, x ∈ a :: s₁ ↔ x ∈ a :: s₂ := by
        intro x
        simp [List.mem_cons, h x]
      rw [ih h2]

/-- Prepending the seen list to the first-seen dedup stays duplicate
free. -/
theorem nodup_append_dedupFirstAux {α : Type} [DecidableEq α] (seen l : List α)
    (h : seen.Nodup) : (seen ++ dedupFirstAux seen l).Nodup := by
  induction l generalizing seen with
  | nil => simpa [dedupFirstAux]
  | cons a l ih =>
    by_cases ha : a ∈ seen
    · rw [dedupFirstAux, if_pos ha]
      exact ih seen h
    · rw [dedupFirstAux, if_neg ha]
      have h2 : ((a :: seen) ++ dedupFirstAux (a :: seen) l).Nodup :=
        ih (a :: seen) (List.nodup_cons.2 ⟨ha, h⟩)
      exact (List.perm_middle.symm).nodup h2

/-- A duplicate-free list has the length of the dedup of any list with the
same members. -/
theorem length_eq_length_dedup {α : Type} [DecidableEq α] (l₁ l₂ : List α)
    (h₁ : l₁.Nodup) (hm : ∀ x, x ∈ l₁ ↔ x ∈ l₂) : l₁.length = l₂.dedup.length := by
  have h3 : l₁.toFinset = l₂.toFinset := by
    apply Finset.ext
    intro x
    simp [List.mem_toFinset, hm]
  calc l₁.length = l₁.dedup.length := by rw [List.dedup_eq_self.2 h₁]
    _ = l₁.toFinset.card := (List.card_toFinset l₁).symm
    _ = l₂.toFinset.card := by rw [h3]
    _ = l₂.dedup.length := List.card_toFinset l₂

/-- Unfolding `dateKeys` over the head record. -/
theorem dateKeys_cons (d : Record) (rest : List Record) :
    dateKeys (d :: rest) =
      match dateKeyOpt d with
      | some p => p :: dateKeys rest
      | none => dateKeys rest := by
  cases h : dateKeyOpt d <;> simp [dateKeys, List.filterMap_cons, h]

/-- Unfolding `sumForDate` over the head record. -/
theorem sumForDate_cons (d : Record) (rest : List Record) (k : String) :
    sumForDate (d :: rest) k =
      (if dateKeyOpt d = some k then amountOf d else 0) + sumForDate rest k := by
  by_cases h : dateKeyOpt d = some k <;> simp [sumForDate, List.filter_cons, h]

/-- Unfolding `sumForId` over the head record. -/
theorem sumForId_cons (d : Record) (rest : List Record) (k : Option Nat) :
    sumForId (d :: rest) k =
      (if d.supporter_id = k then amountOf d else 0) + sumForId rest k := by
  by_cases h : d.supporter_id = k <;> simp [sumForId, List.filter_cons, h]

/-- A record whose amount converts is not a non-numeric record. -/
theorem amount_ne_nonNumeric {r : Record} {q : Rat}
    (hf : floatAmount r.amount = some q) : r.amount ≠ some AmountVal.nonNumeric := by
  intro he
  rw [he] at hf
  simp [floatAmount] at hf

/-- The first loop succeeds exactly when no record has a non-numeric
amount. -/
theorem pass1Aux_isSome_iff (ds : List Record) (ids : List (Option Nat))
    (amts : List Rat) (daily : List (String × Rat)) :
    (pass1Aux ds ids amts daily).isSome ↔
      ∀ r ∈ ds, r.amount ≠ some AmountVal.nonNumeric := by
  induction ds generalizing ids amts daily with
  | nil => simp [pass1Aux]
  | cons d rest ih =>
    cases hf : floatAmount d.amount with
    | none =>
      have hd := floatAmount_eq_none_iff.1 hf
      simp only [pass1Aux, hf, Option.isSome_none, Bool.false_eq_true, false_iff]
      intro hall
      exact hall d (List.mem_cons_self d rest) hd
    | some q =>
      simp [pass1Aux, hf, ih, amount_ne_nonNumeric hf]

/-- On success, the first loop appends every supporter id and every coerced
amount, in input order. -/
theorem pass1Aux_ids_amts {ds : List Record} {ids : List (Option Nat)}
    {amts : List Rat} {daily : List (String × Rat)}
    {out : List (Option Nat) × List Rat × List (String × Rat)}
    (h : pass1Aux ds ids amts daily = some out) :
    out.1 = ids ++ ds.map Record.supporter_id ∧ out.2.1 = amts ++ ds.map amountOf := by
  induction ds generalizing ids amts daily with
  | nil =>
    simp only [pass1Aux, Option.some.injEq] at h
    subst h
    simp
  | cons d rest ih =>
    simp only [pass1Aux] at h
    cases hf : floatAmount d.amount with
    | none =>
      rw [hf] at h
      cases h
    | some q =>
      rw [hf] at h
      simp only [Option.some.injEq] at h
      obtain ⟨h1, h2⟩ := ih h
      refine ⟨?_, ?_⟩
      · rw [h1]
        simp
      · rw [h2]
        simp [amountOf_eq hf]

/-- On success, the keys of `daily_revenue` extend the accumulated keys by
the new date keys in order of first encounter. -/
theorem pass1Aux_daily_keys {ds : List Record} {ids : List (Option Nat)}
    {amts : List Rat} {daily : List (String × Rat)}
    {out : List (Option Nat) × List Rat × List (String × Rat)}
    (h : pass1Aux ds ids amts daily = some out) :
    out.2.2.map Prod.fst =
      daily.map Prod.fst ++ dedupFirstAux (daily.map Prod.fst) (dateKeys ds) := by
  induction ds generalizing ids amts daily with
  | nil =>
    simp only [pass1Aux, Option.some.injEq] at h
    subst h
    simp [dateKeys, dedupFirstAux]
  | cons d rest ih =>
    simp only [pass1Aux] at h
    cases hf : floatAmount d.amount with
    | none =>
      rw [hf] at h
      cases h
    | some q =>
      rw [hf] at h
      simp only [Option.some.injEq] at h
      by_cases hc : d.created_at.getD "" = ""
      · rw [if_neg (by simpa using hc)] at h
        have hk : dateKeyOpt d = none := by simp [dateKeyOpt, hc]
        rw [ih h, dateKeys_cons, hk]
      · rw [if_pos (by simpa using hc)] at h
        have hk : dateKeyOpt d = some (dateKeyOf (d.created_at.getD "")) := by
          simp [dateKeyOpt, hc]
        rw [ih h, dateKeys_cons, hk]
        rw [addDaily_keys]
        by_cases hm : dateKeyOf (d.created_at.getD "") ∈ daily.map Prod.fst
        · rw [if_pos hm, dedupFirstAux, if_pos hm]
        · rw [if_neg hm, dedupFirstAux, if_neg hm, List.append_assoc]
          congr 1
          rw [List.singleton_append]
          congr 1
          apply dedupFirstAux_congr
          intro x
          simp [List.mem_append, List.mem_cons, or_comm]

/-- On success, a daily lookup returns the accumulated value plus the sum
of the amounts grouped under that key, and misses exactly when the key
neither was accumulated nor occurs among the date keys. -/
theorem pass1Aux_daily_lookup {ds : List Record} {ids : List (Option Nat)}
    {amts : List Rat} {daily : List (String × Rat)}
    {out : List (Option Nat) × List Rat × List (String × Rat)}
    (h : pass1Aux ds ids amts daily = some out) (k : String) :
    lookupDaily out.2.2 k =
      if k ∈ daily.map Prod.fst ∨ k ∈ dateKeys ds
      then some ((lookupDaily daily k).getD 0 + sumForDate ds k)
      else none := by
  induction ds generalizing ids amts daily with
  | nil =>
    simp only [pass1Aux, Option.some.injEq] at h
    subst h
    by_cases hm : k ∈ daily.map Prod.fst
    · rw [if_pos (Or.inl hm)]
      rcases hv : lookupDaily daily k with _ | v
      · exact absurd ((lookupDaily_eq_none_iff daily k).1 hv) (by simpa using hm)
      · simp [hv, sumForDate, dateKeys]
    · rw [if_neg (by simp [dateKeys, hm])]
      exact (lookupDaily_eq_none_iff daily k).2 hm
  | cons d rest ih =>
    simp only [pass1Aux] at h
    cases hf : floatAmount d.amount with
    | none =>
      rw [hf] at h
      cases h
    | some q =>
      rw [hf] at h
      simp only [Option.some.injEq] at h
      by_cases hc : d.created_at.getD "" = ""
      · rw [if_neg (by simpa using hc)] at h
        have hk : dateKeyOpt d = none := by simp [dateKeyOpt, hc]
        rw [ih h, dateKeys_cons, hk, sumForDate_cons, hk]
        simp
      · rw [if_pos (by simpa using hc)] at h
        have hk : dateKeyOpt d = some (dateKeyOf (d.created_at.getD "")) := by
          simp [dateKeyOpt, hc]
        have hq : amountOf d = q := amountOf_eq hf
        rw [ih h, dateKeys_cons, hk, sumForDate_cons, hk]
        simp only [Option.some.injEq]
        rcases eq_or_ne (dateKeyOf (d.created_at.getD "")) k with rfl | hne
        · have hmem : dateKeyOf (d.created_at.getD "") ∈
              (addDaily daily (dateKeyOf (d.created_at.getD "")) q).map Prod.fst := by
            rw [addDaily_keys]
            by_cases hm : dateKeyOf (d.created_at.getD "") ∈ daily.map Prod.fst
            · rwa [if_pos hm]
            · rw [if_neg hm]
              simp
          rw [if_pos (Or.inl hmem),
              if_pos (Or.inr (List.mem_cons_self _ _)),
              lookupDaily_addDaily_self]
          simp only [Option.getD_some, Option.some.injEq, eq_self_iff_true, if_true, hq]
          ring
        · have hne2 : k ≠ dateKeyOf (d.created_at.getD "") := hne.symm
          rw [lookupDaily_addDaily_ne daily hne2 q]
          have hkeys : (k ∈ (addDaily daily (dateKeyOf (d.created_at.getD "")) q).map Prod.fst)
              ↔ k ∈ daily.map Prod.fst := by
            rw [addDaily_keys]
            by_cases hm : dateKeyOf (d.created_at.getD "") ∈ daily.map Prod.fst
            · rw [if_pos hm]
            · rw [if_neg hm]
              simp [List.mem_append, hne2]
          have hc2 : (k ∈ dateKeyOf (d.created_at.getD "") :: dateKeys rest)
              ↔ k ∈ dateKeys rest := by
            simp [List.mem_cons, hne2]
          simp only [hkeys, hc2, hne, if_false, zero_add]

/-- On success, when every record carries a non-empty timestamp the stored
daily values sum to the accumulated values plus all coerced amounts. -/
theorem pass1Aux_daily_sum {ds : List Record} {ids : List (Option Nat)}
    {amts : List Rat} {daily : List (String × Rat)}
    {out : List (Option Nat) × List Rat × List (String × Rat)}
    (h : pass1Aux ds ids amts daily = some out)
    (hall : ∀ r ∈ ds, r.created_at.getD "" ≠ "") :
    (out.2.2.map Prod.snd).sum = (daily.map Prod.snd).sum + (ds.map amountOf).sum := by
  induction ds generalizing ids amts daily with
  | nil =>
    simp only [pass1Aux, Option.some.injEq] at h
    subst h
    simp
  | cons d rest ih =>
    simp only [pass1Aux] at h
    cases hf : floatAmount d.amount with
    | none =>
      rw [hf] at h
      cases h
    | some q =>
      rw [hf] at h
      simp only [Option.some.injEq] at h
      have hc : d.created_at.getD "" ≠ "" := hall d (List.mem_cons_self d rest)
      rw [if_pos hc] at h
      have hrest : ∀ r ∈ rest, r.created_at.getD "" ≠ "" :=
        fun r hr => hall r (List.mem_cons_of_mem d hr)
      rw [ih h hrest, addDaily_snd_sum]
      simp [amountOf_eq hf]
      ring

/-- The second loop succeeds exactly when no record has a non-numeric
amount. -/
theorem pass2Aux_isSome_iff (ds : List Record) (tot : List (Option Nat × SupporterData)) :
    (pass2Aux ds tot).isSome ↔ ∀ r ∈ ds, r.amount ≠ some AmountVal.nonNumeric := by
  induction ds generalizing tot with
  | nil => simp [pass2Aux]
  | cons d rest ih =>
    cases hf : floatAmount d.amount with
    | none =>
      have hd := floatAmount_eq_none_iff.1 hf
      simp only [pass2Aux, hf, Option.isSome_none, Bool.false_eq_true, false_iff]
      intro hall
      exact hall d (List.mem_cons_self d rest) hd
    | some q =>
      simp [pass2Aux, hf, ih, amount_ne_nonNumeric hf]

/-- On success, the keys of `supporter_totals` extend the accumulated keys
by the new supporter ids in order of first encounter. -/
theorem pass2Aux_keys {ds : List Record} {tot tot' : List (Option Nat × SupporterData)}
    (h : pass2Aux ds tot = some tot') :
    tot'.map Prod.fst =
      tot.map Prod.fst ++
        dedupFirstAux (tot.map Prod.fst) (ds.map Record.supporter_id) := by
  induction ds generalizing tot with
  | nil =>
    simp only [pass2Aux, Option.some.injEq] at h
    subst h
    simp [dedupFirstAux]
  | cons d rest ih =>
    simp only [pass2Aux] at h
    cases hf : floatAmount d.amount with
    | none =>
      rw [hf] at h
      cases h
    | some q =>
      rw [hf] at h
      simp only [Option.some.injEq] at h
      rw [ih h, List.map_cons, dedupFirstAux, addSupporter_keys]
      by_cases hm : d.supporter_id ∈ tot.map Prod.fst
      · rw [if_pos hm, if_pos hm]
      · rw [if_neg hm, if_neg hm, List.append_assoc]
        congr 1
        rw [List.singleton_append]
        congr 1
        apply dedupFirstAux_congr
        intro x
        simp [List.mem_append, List.mem_cons, or_comm]

/-- `addSupporter` bumps the count of the updated key by one. -/
theorem countOfKey_addSupporter_self (tot : List (Option Nat × SupporterData))
    (id : Option Nat) (nm : String) (a : Rat) :
    countOfKey (addSupporter tot id nm a) id = countOfKey tot id + 1 := by
  unfold countOfKey
  rw [lookupS_addSupporter_self]
  cases lookupS tot id <;> simp

/-- `addSupporter` leaves the count of other keys unchanged. -/
theorem countOfKey_addSupporter_ne (tot : List (Option Nat × SupporterData))
    {id k : Option Nat} (h : k ≠ id) (nm : String) (a : Rat) :
    countOfKey (addSupporter tot id nm a) k = countOfKey tot k := by
  unfold countOfKey
  rw [lookupS_addSupporter_ne tot h]

/-- `addSupporter` adds the amount to the total of the updated key. -/
theorem totalOfKey_addSupporter_self (tot : List (Option Nat × SupporterData))
    (id : Option Nat) (nm : String) (a : Rat) :
    totalOfKey (addSupporter tot id nm a) id = totalOfKey tot id + a := by
  unfold totalOfKey
  rw [lookupS_addSupporter_self]
  cases lookupS tot id <;> simp

/-- `addSupporter` leaves the total of other keys unchanged. -/
theorem totalOfKey_addSupporter_ne (tot : List (Option Nat × SupporterData))
    {id k : Option Nat} (h : k ≠ id) (nm : String) (a : Rat) :
    totalOfKey (addSupporter tot id nm a) k = totalOfKey tot k := by
  unfold totalOfKey
  rw [lookupS_addSupporter_ne tot h]

/-- On success, the second loop adds, for every key, one count per record
with that supporter id and the sum of their coerced amounts. -/
theorem pass2Aux_count_total {ds : List Record}
    {tot tot' : List (Option Nat × SupporterData)}
    (h : pass2Aux ds tot = some tot') (k : Option Nat) :
    countOfKey tot' k =
        countOfKey tot k + ds.countP (fun r => decide (r.supporter_id = k)) ∧
      totalOfKey tot' k = totalOfKey tot k + sumForId ds k := by
  induction ds generalizing tot with
  | nil =>
    simp only [pass2Aux, Option.some.injEq] at h
    subst h
    simp [sumForId]
  | cons d rest ih =>
    simp only [pass2Aux] at h
    cases hf : floatAmount d.amount with
    | none =>
      rw [hf] at h
      cases h
    | some q =>
      rw [hf] at h
      simp only [Option.some.injEq] at h
      obtain ⟨ihc, iht⟩ := ih h
      rw [List.countP_cons, sumForId_cons]
      by_cases hid : d.supporter_id = k
      · subst hid
        constructor
        · rw [ihc, countOfKey_addSupporter_self]
          simp
          omega
        · rw [iht, totalOfKey_addSupporter_self, amountOf_eq hf]
          simp
          ring
      · have hne : k ≠ d.supporter_id := fun he => hid he.symm
        constructor
        · rw [ihc, countOfKey_addSupporter_ne tot hne]
          simp [hid]
        · rw [iht, totalOfKey_addSupporter_ne tot hne]
          simp [hid]

/-- On success, the second loop never changes the name stored for a key
that already has an aggregate. -/
theorem pass2Aux_name_preserved {ds : List Record}
    {tot tot' : List (Option Nat × SupporterData)}
    (h : pass2Aux ds tot = some tot') {k : Option Nat} {d0 : SupporterData}
    (hl : lookupS tot k = some d0) :
    ∃ d1, lookupS tot' k = some d1 ∧ d1.name = d0.name := by
  induction ds generalizing tot d0 with
  | nil =>
    simp only [pass2Aux, Option.some.injEq] at h
    subst h
    exact ⟨d0, hl, rfl⟩
  | cons d rest ih =>
    simp only [pass2Aux] at h
    cases hf : floatAmount d.amount with
    | none =>
      rw [hf] at h
      cases h
    | some q =>
      rw [hf] at h
      simp only [Option.some.injEq] at h
      by_cases hid : d.supporter_id = k
      · subst hid
        have h2 : lookupS (addSupporter tot d.supporter_id
            (d.supporter_name.getD (placeholderName d.supporter_id)) q) d.supporter_id =
            some ⟨d0.name, d0.total + q, d0.count + 1⟩ := by
          rw [lookupS_addSupporter_self, hl]
        obtain ⟨d1, hl1, hn1⟩ := ih h h2
        exact ⟨d1, hl1, hn1⟩
      · have hne : k ≠ d.supporter_id := fun he => hid he.symm
        have h2 : lookupS (addSupporter tot d.supporter_id
            (d.supporter_name.getD (placeholderName d.supporter_id)) q) k = some d0 := by
          rw [lookupS_addSupporter_ne tot hne, hl]
        exact ih h h2

/-- On success, the name stored for a key first encountered inside `ds` is
taken from the first record carrying that supporter id: its name, or the
placeholder when it has none. -/
theorem pass2Aux_name_first {ds : List Record}
    {tot tot' : List (Option Nat × SupporterData)}
    (h : pass2Aux ds tot = some tot') {k : Option Nat} {r : Record}
    (hnone : lookupS tot k = none)
    (hfind : ds.find? (fun r => decide (r.supporter_id = k)) = some r) :
    ∃ d1, lookupS tot' k = some d1 ∧
      d1.name = r.supporter_name.getD (placeholderName r.supporter_id) := by
  induction ds generalizing tot with
  | nil => simp [List.find?] at hfind
  | cons d rest ih =>
    simp only [pass2Aux] at h
    cases hf : floatAmount d.amount with
    | none =>
      rw [hf] at h
      cases h
    | some q =>
      rw [hf] at h
      simp only [Option.some.injEq] at h
      by_cases hid : d.supporter_id = k
      · have hp : decide (d.supporter_id = k) = true := decide_eq_true hid
        rw [List.find?_cons] at hfind
        simp only [hp, Option.some.injEq] at hfind
        subst hfind
        subst hid
        have h2 : lookupS (addSupporter tot d.supporter_id
            (d.supporter_name.getD (placeholderName d.supporter_id)) q) d.supporter_id =
            some ⟨d.supporter_name.getD (placeholderName d.supporter_id), q, 1⟩ := by
          rw [lookupS_addSupporter_self, hnone]
        obtain ⟨d1, hl1, hn1⟩ := pass2Aux_name_preserved h h2
        exact ⟨d1, hl1, hn1⟩
      · have hp : decide (d.supporter_id = k) = false := decide_eq_false hid
        rw [List.find?_cons] at hfind
        simp only [hp] at hfind
        have hne : k ≠ d.supporter_id := fun he => hid he.symm
        have h2 : lookupS (addSupporter tot d.supporter_id
            (d.supporter_name.getD (placeholderName d.supporter_id)) q) k = none := by
          rw [lookupS_addSupporter_ne tot hne, hnone]
        exact ih h h2 hfind

/-- `insertDesc` adds one element. -/
theorem insertDesc_length (x : Option Nat × SupporterData)
    (l : List (Option Nat × SupporterData)) :
    (insertDesc x l).length = l.length + 1 := by
  induction l with
  | nil => rfl
  | cons y ys ih =>
    by_cases h : x.2.total < y.2.total <;> simp [insertDesc, h, ih]

/-- `sortDesc` keeps the length. -/
theorem sortDesc_length (l : List (Option Nat × SupporterData)) :
    (sortDesc l).length = l.length := by
  induction l with
  | nil => rfl
  | cons x xs ih =>
    rw [sortDesc, insertDesc_length, ih, List.length_cons]

/-- `insertDesc` produces a permutation of consing. -/
theorem insertDesc_perm (x : Option Nat × SupporterData)
    (l : List (Option Nat × SupporterData)) :
    List.Perm (insertDesc x l) (x :: l) := by
  induction l with
  | nil => exact List.Perm.refl _
  | cons y ys ih =>
    by_cases h : x.2.total < y.2.total
    · rw [insertDesc, if_pos h]
      exact (ih.cons y).trans (List.Perm.swap x y ys)
    · rw [insertDesc, if_neg h]

/-- `sortDesc` permutes its input. -/
theorem sortDesc_perm (l : List (Option Nat × SupporterData)) :
    List.Perm (sortDesc l) l := by
  induction l with
  | nil => exact List.Perm.refl _
  | cons x xs ih => exact (insertDesc_perm x (sortDesc xs)).trans (ih.cons x)

/-- `insertDesc` keeps the list sorted by `total` descending. -/
theorem insertDesc_pairwise {x : Option Nat × SupporterData}
    {l : List (Option Nat × SupporterData)}
    (h : l.Pairwise (fun a b => b.2.total ≤ a.2.total)) :
    (insertDesc x l).Pairwise (fun a b => b.2.total ≤ a.2.total) := by
  induction l with
  | nil => simp [insertDesc]
  | cons y ys ih =>
    rcases List.pairwise_cons.1 h with ⟨hy, hys⟩
    by_cases hlt : x.2.total < y.2.total
    · rw [insertDesc, if_pos hlt]
      refine List.pairwise_cons.2 ⟨?_, ih hys⟩
      intro z hz
      rcases List.mem_cons.1 ((insertDesc_perm x ys).mem_iff.1 hz) with rfl | hzys
      · exact le_of_lt hlt
      · exact hy z hzys
    · rw [insertDesc, if_neg hlt]
      refine List.pairwise_cons.2 ⟨?_, h⟩
      intro z hz
      rcases List.mem_cons.1 hz with rfl | hzys
      · exact not_lt.1 hlt
      · exact le_trans (hy z hzys) (not_lt.1 hlt)

/-- `sortDesc` sorts by `total` descending. -/
theorem sortDesc_pairwise (l : List (Option Nat × SupporterData)) :
    (sortDesc l).Pairwise (fun a b => b.2.total ≤ a.2.total) := by
  induction l with
  | nil => simp [sortDesc]
  | cons x xs ih => exact insertDesc_pairwise ih

/-- Filtering one `total` value through `insertDesc`: the new element goes
first among the equals and all other elements keep their order. -/
theorem insertDesc_filter (x : Option Nat × SupporterData)
    (l : List (Option Nat × SupporterData)) (t : Rat) :
    (insertDesc x l).filter (fun z => decide (z.2.total = t)) =
      if x.2.total = t
      then x :: l.filter (fun z => decide (z.2.total = t))
      else l.filter (fun z => decide (z.2.total = t)) := by
  induction l with
  | nil => by_cases h : x.2.total = t <;> simp [insertDesc, h]
  | cons y ys ih =>
    by_cases hlt : x.2.total < y.2.total
    · rw [insertDesc, if_pos hlt]
      by_cases hx : x.2.total = t
      · have hy : ¬(y.2.total = t) := by
          rw [← hx]
          exact (ne_of_gt hlt)
        simp [List.filter_cons, hx, hy, ih]
      · simp [List.filter_cons, hx, ih]
    · rw [insertDesc, if_neg hlt]
      by_cases hx : x.2.total = t <;> simp [List.filter_cons, hx]

/-- Stability of `sortDesc`: among the aggregates sharing one `total`, the
sorted list keeps exactly the original order. -/
theorem sortDesc_filter (l : List (Option Nat × SupporterData)) (t : Rat) :
    (sortDesc l).filter (fun z => decide (z.2.total = t)) =
      l.filter (fun z => decide (z.2.total = t)) := by
  induction l with
  | nil => rfl
  | cons x xs ih =>
    rw [sortDesc, insertDesc_filter]
    by_cases hx : x.2.total = t
    · rw [if_pos hx, ih, List.filter_cons, if_pos (by simpa using hx)]
    · rw [if_neg hx, ih, List.filter_cons, if_neg (by simpa using hx)]

/-- Elimination form of `analyze_donations` on a non-empty input: both
loops succeeded and every summary field is the recorded expression. -/
theorem analyze_donations_some {ds : List Record} {s : Summary}
    (h : analyze_donations ds = some s) (hne : ds ≠ []) :
    ∃ ids amts daily tot,
      pass1Aux ds [] [] [] = some (ids, amts, daily) ∧
      pass2Aux ds [] = some tot ∧
      s = { total_supporters := ids.length,
            unique_supporters := if ids.isEmpty then 0 else ids.dedup.length,
            total_donations := ds.length,
            total_revenue := amts.sum,
            average_donation :=
              if ds.length > 0 then amts.sum / (ds.length : Rat) else 0,
            top_supporters := ((sortDesc tot).take 10).map projTop,
            daily_revenue := daily } := by
  unfold analyze_donations at h
  rw [if_neg (by simpa using hne)] at h
  rcases hp1 : pass1Aux ds [] [] [] with _ | x
  · rw [hp1] at h
    cases h
  · obtain ⟨ids, amts, daily⟩ := x
    rw [hp1] at h
    rcases hp2 : pass2Aux ds [] with _ | tot
    · rw [hp2] at h
      cases h
    · rw [hp2] at h
      simp only [Option.some.injEq] at h
      exact ⟨ids, amts, daily, tot, rfl, rfl, h.symm⟩

/-- The `top_supporters` field is always the projection of the first ten
sorted aggregates. -/
theorem analyze_top_eq {ds : List Record} {s : Summary}
    {tot : List (Option Nat × SupporterData)}
    (h : analyze_donations ds = some s) (h2 : pass2Aux ds [] = some tot) :
    s.top_supporters = ((sortDesc tot).take 10).map projTop := by
  rcases eq_or_ne ds [] with rfl | hne
  · simp only [pass2Aux, Option.some.injEq] at h2
    subst h2
    have he : analyze_donations [] =
        some { total_supporters := 0, unique_supporters := 0, total_donations := 0,
               total_revenue := 0, average_donation := 0, top_supporters := [],
               daily_revenue := [] } := rfl
    rw [he, Option.some.injEq] at h
    subst h
    rfl
  · obtain ⟨ids, amts, daily, tot', hp1, hp2', hs⟩ := analyze_donations_some h hne
    have ht : tot' = tot := by
      rw [hp2'] at h2
      exact Option.some.inj h2
    subst ht
    rw [hs]

/-- The `unique_supporters` field always counts the distinct supporter id
values of the input. -/
theorem analyze_unique_eq {ds : List Record} {s : Summary}
    (h : analyze_donations ds = some s) :
    s.unique_supporters = (ds.map Record.supporter_id).dedup.length := by
  rcases eq_or_ne ds [] with rfl | hne
  · have he : analyze_donations [] =
        some { total_supporters := 0, unique_supporters := 0, total_donations := 0,
               total_revenue := 0, average_donation := 0, top_supporters := [],
               daily_revenue := [] } := rfl
    rw [he, Option.some.injEq] at h
    subst h
    rfl
  · obtain ⟨ids, amts, daily, tot, hp1, hp2, hs⟩ := analyze_donations_some h hne
    have hids : ids = ds.map Record.supporter_id := by
      have := (pass1Aux_ids_amts hp1).1
      simpa using this
    have hnil : ids.isEmpty = false := by
      rw [hids]
      cases ds with
      | nil => exact absurd rfl hne
      | cons d rest => rfl
    subst hs
    simp [hnil, hids]
    exact fun h0 => absurd h0 hne

/-- The two record counters of the summary both equal the input length. -/
theorem analyze_total_eq {ds : List Record} {s : Summary}
    (h : analyze_donations ds = some s) :
    s.total_supporters = ds.length ∧ s.total_donations = ds.length := by
  rcases eq_or_ne ds [] with rfl | hne
  · have he : analyze_donations [] =
        some { total_supporters := 0, unique_supporters := 0, total_donations := 0,
               total_revenue := 0, average_donation := 0, top_supporters := [],
               daily_revenue := [] } := rfl
    rw [he, Option.some.injEq] at h
    subst h
    exact ⟨rfl, rfl⟩
  · obtain ⟨ids, amts, daily, tot, hp1, hp2, hs⟩ := analyze_donations_some h hne
    have hids : ids = ds.map Record.supporter_id := by
      simpa using (pass1Aux_ids_amts hp1).1
    subst hs
    exact ⟨by simp [hids], rfl⟩

/-- The revenue field is the sum of all coerced amounts. -/
theorem analyze_revenue_eq {ds : List Record} {s : Summary}
    (h : analyze_donations ds = some s) :
    s.total_revenue = (ds.map amountOf).sum := by
  rcases eq_or_ne ds [] with rfl | hne
  · have he : analyze_donations [] =
        some { total_supporters := 0, unique_supporters := 0, total_donations := 0,
               total_revenue := 0, average_donation := 0, top_supporters := [],
               daily_revenue := [] } := rfl
    rw [he, Option.some.injEq] at h
    subst h
    rfl
  · obtain ⟨ids, amts, daily, tot, hp1, hp2, hs⟩ := analyze_donations_some h hne
    have hamts : amts = ds.map amountOf := by
      simpa using (pass1Aux_ids_amts hp1).2
    subst hs
    simp [hamts]

/-- C6: for every input accepted by analyze, unique_supporters does not
exceed total_supporters, and they are equal exactly when the supporter id
values of the records (an absent id counting as the distinct missing
identifier) are pairwise distinct. -/
theorem C6_unique_le_total {ds : List Record} {s : Summary}
    (h : analyze_donations ds = some s) :
    s.unique_supporters ≤ s.total_supporters ∧
      (s.unique_supporters = s.total_supporters ↔
        (ds.map Record.supporter_id).Nodup) := by
  have hu : s.unique_supporters = (ds.map Record.supporter_id).dedup.length :=
    analyze_unique_eq h
  have ht : s.total_supporters = ds.length := (analyze_total_eq h).1
  have hlen : (ds.map Record.supporter_id).length = ds.length := List.length_map ds _
  constructor
  · rw [hu, ht, ← hlen]
    exact (List.dedup_sublist _).length_le
  · rw [hu, ht, ← hlen]
    constructor
    · intro hl
      have hdd : (ds.map Record.supporter_id).dedup = ds.map Record.supporter_id :=
        (List.dedup_sublist _).eq_of_length hl
      exact List.dedup_eq_self.1 hdd
    · intro hnd
      rw [List.dedup_eq_self.2 hnd]

/-- C7: for every input accepted by analyze, total_supporters equals the
number of records processed, hence equals total_donations. -/
theorem C7_total_supporters {ds : List Record} {s : Summary}
    (h : analyze_donations ds = some s) :
    s.total_supporters = ds.length ∧ s.total_supporters = s.total_donations := by
  obtain ⟨h1, h2⟩ := analyze_total_eq h
  exact ⟨h1, h1.trans h2.symm⟩

/-- C8: for every input accepted by analyze, average_donation is the
guarded quotient: total_revenue over total_donations when there are
donations, and zero otherwise. -/
theorem C8_average {ds : List Record} {s : Summary}
    (h : analyze_donations ds = some s) :
    s.average_donation =
      if 0 < s.total_donations
      then s.total_revenue / (s.total_donations : Rat) else 0 := by
  rcases eq_or_ne ds [] with rfl | hne
  · have he : analyze_donations [] =
        some { total_supporters := 0, unique_supporters := 0, total_donations := 0,
               total_revenue := 0, average_donation := 0, top_supporters := [],
               daily_revenue := [] } := rfl
    rw [he, Option.some.injEq] at h
    subst h
    rfl
  · obtain ⟨ids, amts, daily, tot, hp1, hp2, hs⟩ := analyze_donations_some h hne
    subst hs
    rfl

/-- Filling an absent amount moves no other field. -/
theorem fillAmount0_fields (r : Record) :
    (fillAmount0 r).supporter_id = r.supporter_id ∧
      (fillAmount0 r).supporter_name = r.supporter_name ∧
      (fillAmount0 r).created_at = r.created_at ∧
      floatAmount (fillAmount0 r).amount = floatAmount r.amount := by
  cases hr : r.amount <;> simp [fillAmount0, hr, floatAmount]

/-- The first loop cannot see the difference between an absent amount and
the number zero. -/
theorem pass1Aux_fillAmount0 (ds : List Record) (ids : List (Option Nat))
    (amts : List Rat) (daily : List (String × Rat)) :
    pass1Aux (ds.map fillAmount0) ids amts daily = pass1Aux ds ids amts daily := by
  induction ds generalizing ids amts daily with
  | nil => rfl
  | cons d rest ih =>
    obtain ⟨h1, h2, h3, h4⟩ := fillAmount0_fields d
    simp only [List.map_cons, pass1Aux, h1, h3, h4]
    cases floatAmount d.amount with
    | none => rfl
    | some q => exact ih _ _ _

/-- The second loop cannot see the difference between an absent amount and
the number zero. -/
theorem pass2Aux_fillAmount0 (ds : List Record)
    (tot : List (Option Nat × SupporterData)) :
    pass2Aux (ds.map fillAmount0) tot = pass2Aux ds tot := by
  induction ds generalizing tot with
  | nil => rfl
  | cons d rest ih =>
    obtain ⟨h1, h2, h3, h4⟩ := fillAmount0_fields d
    simp only [List.map_cons, pass2Aux, h1, h2, h4]
    cases floatAmount d.amount with
    | none => rfl
    | some q => exact ih _

/-- C1 counterexample: the claim says analyze never raises for malformed
individual fields, with a non-numeric amount contributing zero; but on a
single record whose amount is a non-numeric value, `float` raises and
analyze aborts (modelled as `none`) instead of returning a summary. -/
theorem C1_counterexample :
    analyze_donations [{ amount := some AmountVal.nonNumeric }] = none := rfl

/-- C1 amended: analyze raises exactly when some record has a present but
non-numeric amount; a record whose amount is absent is processed to
completion and treated exactly as a zero amount, contributing zero to
total_revenue and to all supporter and daily totals. -/
theorem C1_amended (ds : List Record) :
    (analyze_donations ds = none ↔
        ds.countP (fun r => decide (r.amount = some AmountVal.nonNumeric)) ≠ 0) ∧
      analyze_donations (ds.map fillAmount0) = analyze_donations ds := by
  constructor
  · rcases eq_or_ne ds [] with rfl | hne
    · simp [analyze_donations]
    · constructor
      · intro hnone
        intro hzero
        have hall : ∀ r ∈ ds, r.amount ≠ some AmountVal.nonNumeric := by
          intro r hr
          have := List.countP_eq_zero.1 hzero r hr
          simpa using this
        have h1 : (pass1Aux ds [] [] []).isSome :=
          (pass1Aux_isSome_iff ds [] [] []).2 hall
        have h2 : (pass2Aux ds []).isSome :=
          (pass2Aux_isSome_iff ds []).2 hall
        rcases Option.isSome_iff_exists.1 h1 with ⟨⟨ids, amts, daily⟩, hp1⟩
        rcases Option.isSome_iff_exists.1 h2 with ⟨tot, hp2⟩
        unfold analyze_donations at hnone
        rw [if_neg (by simpa using hne), hp1, hp2] at hnone
        cases hnone
      · intro hcount
        have hbad : ∃ r ∈ ds, r.amount = some AmountVal.nonNumeric := by
          rcases List.countP_pos_iff.1 (Nat.pos_of_ne_zero hcount) with ⟨r, hr, hp⟩
          exact ⟨r, hr, by simpa using hp⟩
        have h1 : ¬(pass1Aux ds [] [] []).isSome := by
          rw [pass1Aux_isSome_iff]
          intro hall
          rcases hbad with ⟨r, hr, hb⟩
          exact hall r hr hb
        have h1n : pass1Aux ds [] [] [] = none := Option.not_isSome_iff_eq_none.1 h1
        unfold analyze_donations
        rw [if_neg (by simpa using hne), h1n]
  · rcases eq_or_ne ds [] with rfl | hne
    · rfl
    · unfold analyze_donations
      rw [pass1Aux_fillAmount0, pass2Aux_fillAmount0]
      have hne2 : ¬(ds.map fillAmount0).isEmpty = true := by
        cases ds with
        | nil => exact absurd rfl hne
        | cons d rest => simp
      rw [if_neg hne2, if_neg (by simpa using hne)]
      cases pass1Aux ds [] [] [] with
      | none => rfl
      | some x =>
        obtain ⟨ids, amts, daily⟩ := x
        cases pass2Aux ds [] with
        | none => rfl
        | some tot => simp

/-- First-seen dedup from an empty seen list has the length of `dedup`. -/
theorem dedupFirstAux_nil_length {α : Type} [DecidableEq α] (l : List α) :
    (dedupFirstAux ([] : List α) l).length = l.dedup.length := by
  apply length_eq_length_dedup
  · have := nodup_append_dedupFirstAux ([] : List α) l List.nodup_nil
    simpa using this
  · intro x
    simp [mem_dedupFirstAux]

/-- C2 amended: the name stored in the aggregate of a supporter id is the
one derived from the first record carrying that id: that record's
supporter_name, or the placeholder "Supporter {id}" when it has none; it
is never overwritten by later records for the same id. -/
theorem C2_amended {ds : List Record} {tot : List (Option Nat × SupporterData)}
    {k : Option Nat} {r : Record}
    (h : pass2Aux ds [] = some tot)
    (hfind : ds.find? (fun r => decide (r.supporter_id = k)) = some r) :
    ∃ d, lookupS tot k = some d ∧
      d.name = r.supporter_name.getD (placeholderName r.supporter_id) := by
  exact pass2Aux_name_first h rfl hfind

/-- C3: top_supporters is the projection of the first ten aggregates
sorted stably by total descending: its length is min(10, unique
supporters), it is ordered by total donated descending, and among equal
totals the aggregate list order (first-encounter order) is preserved. -/
theorem C3_top_supporters {ds : List Record} {s : Summary}
    {tot : List (Option Nat × SupporterData)}
    (h : analyze_donations ds = some s) (h2 : pass2Aux ds [] = some tot) :
    s.top_supporters = ((sortDesc tot).take 10).map projTop ∧
      s.top_supporters.length = min 10 s.unique_supporters ∧
      s.top_supporters.Pairwise (fun a b => b.total_donated ≤ a.total_donated) ∧
      ∀ t : Rat, (sortDesc tot).filter (fun z => decide (z.2.total = t)) =
        tot.filter (fun z => decide (z.2.total = t)) := by
  have htop := analyze_top_eq h h2
  have hkeys : tot.map Prod.fst =
      dedupFirstAux ([] : List (Option Nat)) (ds.map Record.supporter_id) := by
    simpa using pass2Aux_keys h2
  have hlen : tot.length = s.unique_supporters := by
    have h5 : tot.length = (tot.map Prod.fst).length := (List.length_map tot _).symm
    rw [analyze_unique_eq h, h5, hkeys, dedupFirstAux_nil_length]
  refine ⟨htop, ?_, ?_, fun t => sortDesc_filter tot t⟩
  · rw [htop, List.length_map, List.length_take, sortDesc_length, hlen]
  · rw [htop, List.pairwise_map]
    exact ((sortDesc_pairwise tot).sublist (List.take_sublist 10 _))

/-- C4 amended: the keys of daily_revenue are exactly the distinct date
prefixes of the records whose created_at is present and non-empty, in
first-seen input order, and each key maps to the sum of the coerced
amounts of the records sharing that date prefix. -/
theorem C4_daily_revenue {ds : List Record} {s : Summary}
    (h : analyze_donations ds = some s) :
    s.daily_revenue.map Prod.fst = dedupFirstAux ([] : List String) (dateKeys ds) ∧
      ∀ k, lookupDaily s.daily_revenue k =
        if k ∈ dateKeys ds then some (sumForDate ds k) else none := by
  rcases eq_or_ne ds [] with rfl | hne
  · have he : analyze_donations [] =
        some { total_supporters := 0, unique_supporters := 0, total_donations := 0,
               total_revenue := 0, average_donation := 0, top_supporters := [],
               daily_revenue := [] } := rfl
    rw [he, Option.some.injEq] at h
    subst h
    exact ⟨rfl, fun k => by simp [lookupDaily, dateKeys]⟩
  · obtain ⟨ids, amts, daily, tot, hp1, hp2, hs⟩ := analyze_donations_some h hne
    subst hs
    constructor
    · have := pass1Aux_daily_keys hp1
      simpa using this
    · intro k
      have := pass1Aux_daily_lookup hp1 k
      simpa [lookupDaily] using this

/-- C5 amended: when every record carries a present, non-empty created_at
string, total_revenue equals the sum of the daily_revenue values. -/
theorem C5_revenue_eq_daily_sum {ds : List Record} {s : Summary}
    (hall : ∀ r ∈ ds, r.created_at.getD "" ≠ "")
    (h : analyze_donations ds = some s) :
    s.total_revenue = (s.daily_revenue.map Prod.snd).sum := by
  rcases eq_or_ne ds [] with rfl | hne
  · have he : analyze_donations [] =
        some { total_supporters := 0, unique_supporters := 0, total_donations := 0,
               total_revenue := 0, average_donation := 0, top_supporters := [],
               daily_revenue := [] } := rfl
    rw [he, Option.some.injEq] at h
    subst h
    rfl
  · obtain ⟨ids, amts, daily, tot, hp1, hp2, hs⟩ := analyze_donations_some h hne
    subst hs
    have h1 := pass1Aux_daily_sum hp1 hall
    have h2 : amts = ds.map amountOf := by
      simpa using (pass1Aux_ids_amts hp1).2
    simp only [h2]
    simpa using h1.symm

/-- Counting distinct values of an option list containing `none`: one for
`none` plus the distinct present values. -/
theorem dedup_length_of_none_mem {l : List (Option Nat)} (h : (none : Option Nat) ∈ l) :
    l.dedup.length = 1 + l.reduceOption.dedup.length := by
  have h1 : l.toFinset = insert none ((l.reduceOption.toFinset).image some) := by
    apply Finset.ext
    intro x
    cases x with
    | none => simp [List.mem_toFinset, h]
    | some a =>
      simp [List.mem_toFinset, Finset.mem_insert, Finset.mem_image,
        List.reduceOption_mem_iff]
  have h2 : (none : Option Nat) ∉ (l.reduceOption.toFinset).image some := by
    simp
  rw [← List.card_toFinset, h1, Finset.card_insert_of_not_mem h2,
    Finset.card_image_of_injective _ (Option.some_injective Nat), List.card_toFinset]
  omega

/-- An association list with duplicate-free keys holds at most one entry
per key. -/
theorem countP_key_le_one {l : List (Option Nat × SupporterData)} {k : Option Nat}
    (h : (l.map Prod.fst).Nodup) :
    l.countP (fun x => decide (x.1 = k)) ≤ 1 := by
  induction l with
  | nil => simp
  | cons x xs ih =>
    rw [List.map_cons, List.nodup_cons] at h
    obtain ⟨hx, hxs⟩ := h
    rw [List.countP_cons]
    by_cases hk : x.1 = k
    · have h0 : xs.countP (fun x => decide (x.1 = k)) = 0 := by
        rw [List.countP_eq_zero]
        intro a ha
        simp only [decide_eq_true_eq]
        intro hak
        apply hx
        rw [hk, ← hak]
        exact List.mem_map_of_mem Prod.fst ha
      rw [h0]
      simp [hk]
    · simpa [hk] using ih hxs

/-- C10: all records lacking a supporter id are aggregated under the one
shared missing key `None`: they bring exactly one extra distinct supporter
to unique_supporters, the aggregate stored under the missing key counts
exactly those records and totals exactly their amounts, and at most one
entry of the ten sorted aggregates projected into top_supporters carries
the missing key. -/
theorem C10_missing_ids {ds : List Record} {s : Summary}
    {tot : List (Option Nat × SupporterData)}
    (h : analyze_donations ds = some s) (h2 : pass2Aux ds [] = some tot)
    (hm : 0 < ds.countP (fun r => decide (r.supporter_id = none))) :
    s.unique_supporters = 1 + (ds.filterMap Record.supporter_id).dedup.length ∧
      (∃ d, lookupS tot none = some d ∧
        d.count = ds.countP (fun r => decide (r.supporter_id = none)) ∧
        d.total = sumForId ds none) ∧
      ((sortDesc tot).take 10).countP (fun x => decide (x.1 = none)) ≤ 1 := by
  refine ⟨?_, ?_, ?_⟩
  · have hmem : (none : Option Nat) ∈ ds.map Record.supporter_id := by
      rcases List.countP_pos_iff.1 hm with ⟨r, hr, hp⟩
      have hid : r.supporter_id = none := by simpa using hp
      rw [← hid]
      exact List.mem_map_of_mem Record.supporter_id hr
    rw [analyze_unique_eq h, dedup_length_of_none_mem hmem]
    congr 2
    simp [List.reduceOption, List.filterMap_map, Function.comp]
  · obtain ⟨hcount, htotal⟩ := pass2Aux_count_total h2 none
    cases hl : lookupS tot none with
    | none =>
      exfalso
      have hz : countOfKey tot none = 0 := by simp [countOfKey, hl]
      rw [hz] at hcount
      have hc0 : countOfKey ([] : List (Option Nat × SupporterData)) none = 0 := rfl
      rw [hc0] at hcount
      omega
    | some d =>
      refine ⟨d, rfl, ?_, ?_⟩
      · have hdc : countOfKey tot none = d.count := by simp [countOfKey, hl]
        have hc0 : countOfKey ([] : List (Option Nat × SupporterData)) none = 0 := rfl
        rw [hdc, hc0] at hcount
        omega
      · have hdt : totalOfKey tot none = d.total := by simp [totalOfKey, hl]
        have ht0 : totalOfKey ([] : List (Option Nat × SupporterData)) none = 0 := rfl
        rw [hdt, ht0, zero_add] at htotal
        exact htotal
  · have hkeys : tot.map Prod.fst =
        dedupFirstAux ([] : List (Option Nat)) (ds.map Record.supporter_id) := by
      simpa using pass2Aux_keys h2
    have hnd : (tot.map Prod.fst).Nodup := by
      rw [hkeys]
      have := nodup_append_dedupFirstAux ([] : List (Option Nat))
        (ds.map Record.supporter_id) List.nodup_nil
      simpa using this
    calc ((sortDesc tot).take 10).countP (fun x => decide (x.1 = none))
        ≤ (sortDesc tot).countP (fun x => decide (x.1 = none)) :=
          (List.take_sublist 10 _).countP_le _
      _ = tot.countP (fun x => decide (x.1 = none)) :=
          (sortDesc_perm tot).countP_eq _
      _ ≤ 1 := countP_key_le_one hnd

/-- C9: analyze applied to the empty sequence returns a summary with
total_supporters, unique_supporters, total_donations, total_revenue and
average_donation all zero, top_supporters the empty sequence and
daily_revenue the empty mapping. -/
theorem C9_empty_input :
    analyze_donations [] =
      some { total_supporters := 0, unique_supporters := 0, total_donations := 0,
             total_revenue := 0, average_donation := 0, top_supporters := [],
             daily_revenue := [] } := by
  rfl

/-- C2 counterexample: the claim says the stored name is the first
non-placeholder supporter_name seen for the id; here the first record for
id 5 has no name and the second carries the name "Alice", yet the code
keeps the placeholder "Supporter 5" derived from the first record and
never picks up "Alice". -/
theorem C2_counterexample :
    analyze_donations [⟨some 5, none, some (.ofRat 1), none⟩,
        ⟨some 5, some "Alice", some (.ofRat 1), none⟩] =
      some ⟨2, 1, 2, 2, 1, [⟨"Supporter 5", 2, 2⟩], []⟩ ∧
      "Supporter 5" = placeholderName (some 5) ∧ "Supporter 5" ≠ "Alice" := by
  refine ⟨?_, by decide, by decide⟩
  norm_num [analyze_donations, pass1Aux, pass2Aux, addDaily, addSupporter,
    floatAmount, placeholderName, sortDesc, insertDesc, projTop]
  all_goals decide

/-- Witness for C2 amended at a concrete input: the aggregate of id 5 is
named by the first record (placeholder), not by the later "Alice". -/
theorem C2_amended_witness :
    pass2Aux [⟨some 5, none, some (.ofRat 1), none⟩,
        ⟨some 5, some "Alice", some (.ofRat 1), none⟩] [] =
      some [(some 5, ⟨"Supporter 5", 2, 2⟩)] ∧
      (lookupS [((some 5 : Option Nat), (⟨"Supporter 5", 2, 2⟩ : SupporterData))]
        (some 5)).map SupporterData.name = some "Supporter 5" := by
  have hp : pass2Aux [⟨some 5, none, some (.ofRat 1), none⟩,
      ⟨some 5, some "Alice", some (.ofRat 1), none⟩] [] =
      some [(some 5, ⟨"Supporter 5", 2, 2⟩)] := by
    norm_num [pass2Aux, addSupporter, floatAmount, placeholderName]
    all_goals decide
  have hfind : List.find? (fun r => decide (r.supporter_id = some 5))
      ([⟨some 5, none, some (.ofRat 1), none⟩,
        ⟨some 5, some "Alice", some (.ofRat 1), none⟩] : List Record) =
      some ⟨some 5, none, some (.ofRat 1), none⟩ := by decide
  obtain ⟨d, hl, hn⟩ := C2_amended hp hfind
  refine ⟨hp, ?_⟩
  rw [hl, Option.map_some', hn]
  decide

/-- Witness for C3 at the worked example of the specification. -/
theorem C3_top_supporters_witness :
    analyze_donations
        [⟨some 1, none, some (.ofRat 50), some "2023-01-05T10:00:00"⟩,
         ⟨some 1, none, some (.ofRat 30), some "2023-01-06T10:00:00"⟩,
         ⟨some 2, none, some (.ofRat 100), some "2023-01-05T10:00:00"⟩] =
      some ⟨3, 2, 3, 180, 60,
        [⟨"Supporter 2", 100, 1⟩, ⟨"Supporter 1", 80, 2⟩],
        [("2023-01-05", 150), ("2023-01-06", 30)]⟩ ∧
      (⟨3, 2, 3, 180, 60,
        [⟨"Supporter 2", 100, 1⟩, ⟨"Supporter 1", 80, 2⟩],
        [("2023-01-05", 150), ("2023-01-06", 30)]⟩ : Summary).top_supporters.length =
        min 10 (⟨3, 2, 3, 180, 60,
          [⟨"Supporter 2", 100, 1⟩, ⟨"Supporter 1", 80, 2⟩],
          [("2023-01-05", 150), ("2023-01-06", 30)]⟩ : Summary).unique_supporters := by
  have hd1 : dateKeyOf "2023-01-05T10:00:00" = "2023-01-05" := by decide
  have hd2 : dateKeyOf "2023-01-06T10:00:00" = "2023-01-06" := by decide
  have h : analyze_donations
      [⟨some 1, none, some (.ofRat 50), some "2023-01-05T10:00:00"⟩,
       ⟨some 1, none, some (.ofRat 30), some "2023-01-06T10:00:00"⟩,
       ⟨some 2, none, some (.ofRat 100), some "2023-01-05T10:00:00"⟩] =
      some ⟨3, 2, 3, 180, 60,
        [⟨"Supporter 2", 100, 1⟩, ⟨"Supporter 1", 80, 2⟩],
        [("2023-01-05", 150), ("2023-01-06", 30)]⟩ := by
    norm_num [analyze_donations, pass1Aux, pass2Aux, addDaily, addSupporter,
      hd1, hd2, floatAmount, placeholderName, sortDesc, insertDesc, projTop]
    all_goals decide
  have hp : pass2Aux
      [⟨some 1, none, some (.ofRat 50), some "2023-01-05T10:00:00"⟩,
       ⟨some 1, none, some (.ofRat 30), some "2023-01-06T10:00:00"⟩,
       ⟨some 2, none, some (.ofRat 100), some "2023-01-05T10:00:00"⟩] [] =
      some [(some 1, ⟨"Supporter 1", 80, 2⟩), (some 2, ⟨"Supporter 2", 100, 1⟩)] := by
    norm_num [pass2Aux, addSupporter, floatAmount, placeholderName]
    all_goals decide
  exact ⟨h, (C3_top_supporters h hp).2.1⟩

/-- C4 counterexample: the claim says the keys of daily_revenue are the
date prefixes of all records that have a created_at; this record has a
created_at (the empty string, whose date prefix is the empty string), yet
daily_revenue stays empty because the code tests truthiness, not
presence. -/
theorem C4_counterexample :
    analyze_donations [⟨none, none, some (.ofRat 7), some ""⟩] =
      some ⟨1, 1, 1, 7, 7, [⟨"Supporter None", 7, 1⟩], []⟩ ∧
      (⟨none, none, some (.ofRat 7), some ""⟩ : Record).created_at = some "" ∧
      dateKeyOf "" = "" := by
  refine ⟨?_, rfl, rfl⟩
  norm_num [analyze_donations, pass1Aux, pass2Aux, addDaily, addSupporter,
    floatAmount, placeholderName, sortDesc, insertDesc, projTop]

/-- Witness for C4 amended at a concrete input: two records on the same
day give one key holding their summed amounts. -/
theorem C4_daily_revenue_witness :
    analyze_donations
        [⟨some 1, none, some (.ofRat 50), some "2023-01-05T10:00:00"⟩,
         ⟨some 1, none, some (.ofRat 30), some "2023-01-05T12:00:00"⟩] =
      some ⟨2, 1, 2, 80, 40, [⟨"Supporter 1", 80, 2⟩], [("2023-01-05", 80)]⟩ ∧
      (⟨2, 1, 2, 80, 40, [⟨"Supporter 1", 80, 2⟩],
        [("2023-01-05", 80)]⟩ : Summary).daily_revenue.map Prod.fst =
        dedupFirstAux ([] : List String)
          (dateKeys [⟨some 1, none, some (.ofRat 50), some "2023-01-05T10:00:00"⟩,
            ⟨some 1, none, some (.ofRat 30), some "2023-01-05T12:00:00"⟩]) ∧
      lookupDaily (⟨2, 1, 2, 80, 40, [⟨"Supporter 1", 80, 2⟩],
          [("2023-01-05", 80)]⟩ : Summary).daily_revenue "2023-01-05" =
        (if "2023-01-05" ∈ dateKeys [⟨some 1, none, some (.ofRat 50), some "2023-01-05T10:00:00"⟩,
            ⟨some 1, none, some (.ofRat 30), some "2023-01-05T12:00:00"⟩]
         then some (sumForDate [⟨some 1, none, some (.ofRat 50), some "2023-01-05T10:00:00"⟩,
            ⟨some 1, none, some (.ofRat 30), some "2023-01-05T12:00:00"⟩] "2023-01-05")
         else none) := by
  have hd1 : dateKeyOf "2023-01-05T10:00:00" = "2023-01-05" := by decide
  have hd2 : dateKeyOf "2023-01-05T12:00:00" = "2023-01-05" := by decide
  have h : analyze_donations
      [⟨some 1, none, some (.ofRat 50), some "2023-01-05T10:00:00"⟩,
       ⟨some 1, none, some (.ofRat 30), some "2023-01-05T12:00:00"⟩] =
      some ⟨2, 1, 2, 80, 40, [⟨"Supporter 1", 80, 2⟩], [("2023-01-05", 80)]⟩ := by
    norm_num [analyze_donations, pass1Aux, pass2Aux, addDaily, addSupporter,
      hd1, hd2, floatAmount, placeholderName, sortDesc, insertDesc, projTop]
    all_goals decide
  exact ⟨h, (C4_daily_revenue h).1, (C4_daily_revenue h).2 "2023-01-05"⟩

/-- C5 counterexample: the claim requires total_revenue to equal the sum
of daily_revenue whenever every record has a created_at; this record has
one (the empty string) but its 5 never reaches any daily bucket, so the
sums differ. -/
theorem C5_counterexample :
    analyze_donations [⟨none, none, some (.ofRat 5), some ""⟩] =
      some ⟨1, 1, 1, 5, 5, [⟨"Supporter None", 5, 1⟩], []⟩ ∧
      (⟨none, none, some (.ofRat 5), some ""⟩ : Record).created_at.isSome = true ∧
      (5 : Rat) ≠ (([] : List (String × Rat)).map Prod.snd).sum := by
  refine ⟨?_, rfl, by norm_num⟩
  norm_num [analyze_donations, pass1Aux, pass2Aux, addDaily, addSupporter,
    floatAmount, placeholderName, sortDesc, insertDesc, projTop]

/-- Witness for C5 amended at a concrete input with non-empty timestamps
on every record. -/
theorem C5_revenue_eq_daily_sum_witness :
    analyze_donations
        [⟨some 3, none, some (.ofRat 10), some "2024-02-01T08:00:00"⟩,
         ⟨some 4, none, some (.ofRat 20), some "2024-02-02T09:00:00"⟩] =
      some ⟨2, 2, 2, 30, 15, [⟨"Supporter 4", 20, 1⟩, ⟨"Supporter 3", 10, 1⟩],
        [("2024-02-01", 10), ("2024-02-02", 20)]⟩ ∧
      (⟨2, 2, 2, 30, 15, [⟨"Supporter 4", 20, 1⟩, ⟨"Supporter 3", 10, 1⟩],
        [("2024-02-01", 10), ("2024-02-02", 20)]⟩ : Summary).total_revenue =
        ((⟨2, 2, 2, 30, 15, [⟨"Supporter 4", 20, 1⟩, ⟨"Supporter 3", 10, 1⟩],
          [("2024-02-01", 10), ("2024-02-02", 20)]⟩ : Summary).daily_revenue.map
            Prod.snd).sum := by
  have hd1 : dateKeyOf "2024-02-01T08:00:00" = "2024-02-01" := by decide
  have hd2 : dateKeyOf "2024-02-02T09:00:00" = "2024-02-02" := by decide
  have h : analyze_donations
      [⟨some 3, none, some (.ofRat 10), some "2024-02-01T08:00:00"⟩,
       ⟨some 4, none, some (.ofRat 20), some "2024-02-02T09:00:00"⟩] =
      some ⟨2, 2, 2, 30, 15, [⟨"Supporter 4", 20, 1⟩, ⟨"Supporter 3", 10, 1⟩],
        [("2024-02-01", 10), ("2024-02-02", 20)]⟩ := by
    norm_num [analyze_donations, pass1Aux, pass2Aux, addDaily, addSupporter,
      hd1, hd2, floatAmount, placeholderName, sortDesc, insertDesc, projTop]
    all_goals decide
  exact ⟨h, C5_revenue_eq_daily_sum (by decide) h⟩

/-- Witness for C6 at a concrete input with two distinct supporter ids. -/
theorem C6_unique_le_total_witness :
    analyze_donations [⟨some 1, some "Ann", some (.ofRat 2), none⟩,
        ⟨some 2, some "Bob", some (.ofRat 4), none⟩] =
      some ⟨2, 2, 2, 6, 3, [⟨"Bob", 4, 1⟩, ⟨"Ann", 2, 1⟩], []⟩ ∧
      (⟨2, 2, 2, 6, 3, [⟨"Bob", 4, 1⟩, ⟨"Ann", 2, 1⟩], []⟩ : Summary).unique_supporters ≤
        (⟨2, 2, 2, 6, 3, [⟨"Bob", 4, 1⟩, ⟨"Ann", 2, 1⟩], []⟩ : Summary).total_supporters ∧
      ((⟨2, 2, 2, 6, 3, [⟨"Bob", 4, 1⟩, ⟨"Ann", 2, 1⟩], []⟩ : Summary).unique_supporters =
          (⟨2, 2, 2, 6, 3, [⟨"Bob", 4, 1⟩, ⟨"Ann", 2, 1⟩], []⟩ : Summary).total_supporters ↔
        (([⟨some 1, some "Ann", some (.ofRat 2), none⟩,
           ⟨some 2, some "Bob", some (.ofRat 4), none⟩] : List Record).map
            Record.supporter_id).Nodup) := by
  have h : analyze_donations [⟨some 1, some "Ann", some (.ofRat 2), none⟩,
      ⟨some 2, some "Bob", some (.ofRat 4), none⟩] =
      some ⟨2, 2, 2, 6, 3, [⟨"Bob", 4, 1⟩, ⟨"Ann", 2, 1⟩], []⟩ := by
    norm_num [analyze_donations, pass1Aux, pass2Aux, addDaily, addSupporter,
      floatAmount, placeholderName, sortDesc, insertDesc, projTop]
  exact ⟨h, (C6_unique_le_total h).1, (C6_unique_le_total h).2⟩

/-- Witness for C7 at a concrete one-record input. -/
theorem C7_total_supporters_witness :
    analyze_donations [⟨some 9, none, some (.ofRat 1), none⟩] =
      some ⟨1, 1, 1, 1, 1, [⟨"Supporter 9", 1, 1⟩], []⟩ ∧
      (⟨1, 1, 1, 1, 1, [⟨"Supporter 9", 1, 1⟩], []⟩ : Summary).total_supporters =
        ([⟨some 9, none, some (.ofRat 1), none⟩] : List Record).length ∧
      (⟨1, 1, 1, 1, 1, [⟨"Supporter 9", 1, 1⟩], []⟩ : Summary).total_supporters =
        (⟨1, 1, 1, 1, 1, [⟨"Supporter 9", 1, 1⟩], []⟩ : Summary).total_donations := by
  have h : analyze_donations [⟨some 9, none, some (.ofRat 1), none⟩] =
      some ⟨1, 1, 1, 1, 1, [⟨"Supporter 9", 1, 1⟩], []⟩ := by
    norm_num [analyze_donations, pass1Aux, pass2Aux, addDaily, addSupporter,
      floatAmount, placeholderName, sortDesc, insertDesc, projTop]
    all_goals decide
  exact ⟨h, (C7_total_supporters h).1, (C7_total_supporters h).2⟩

/-- Witness for C8 at a concrete input whose average is a proper
fraction. -/
theorem C8_average_witness :
    analyze_donations [⟨some 2, none, some (.ofRat 3), none⟩,
        ⟨some 2, none, some (.ofRat 4), none⟩] =
      some ⟨2, 1, 2, 7, 7 / 2, [⟨"Supporter 2", 7, 2⟩], []⟩ ∧
      (⟨2, 1, 2, 7, 7 / 2, [⟨"Supporter 2", 7, 2⟩], []⟩ : Summary).average_donation =
        (if 0 < (⟨2, 1, 2, 7, 7 / 2, [⟨"Supporter 2", 7, 2⟩], []⟩ : Summary).total_donations
         then (⟨2, 1, 2, 7, 7 / 2, [⟨"Supporter 2", 7, 2⟩], []⟩ : Summary).total_revenue /
           ((⟨2, 1, 2, 7, 7 / 2, [⟨"Supporter 2", 7, 2⟩], []⟩ : Summary).total_donations : Rat)
         else 0) := by
  have h : analyze_donations [⟨some 2, none, some (.ofRat 3), none⟩,
      ⟨some 2, none, some (.ofRat 4), none⟩] =
      some ⟨2, 1, 2, 7, 7 / 2, [⟨"Supporter 2", 7, 2⟩], []⟩ := by
    norm_num [analyze_donations, pass1Aux, pass2Aux, addDaily, addSupporter,
      floatAmount, placeholderName, sortDesc, insertDesc, projTop]
    all_goals decide
  exact ⟨h, C8_average h⟩

/-- Witness for C10 at a concrete input with two id-less records among
three. -/
theorem C10_missing_ids_witness :
    analyze_donations [⟨none, none, some (.ofRat 5), none⟩,
        ⟨some 1, none, some (.ofRat 3), none⟩,
        ⟨none, none, some (.ofRat 2), none⟩] =
      some ⟨3, 2, 3, 10, 10 / 3,
        [⟨"Supporter None", 7, 2⟩, ⟨"Supporter 1", 3, 1⟩], []⟩ ∧
      pass2Aux [⟨none, none, some (.ofRat 5), none⟩,
        ⟨some 1, none, some (.ofRat 3), none⟩,
        ⟨none, none, some (.ofRat 2), none⟩] [] =
        some [(none, ⟨"Supporter None", 7, 2⟩), (some 1, ⟨"Supporter 1", 3, 1⟩)] ∧
      (⟨3, 2, 3, 10, 10 / 3, [⟨"Supporter None", 7, 2⟩, ⟨"Supporter 1", 3, 1⟩],
          []⟩ : Summary).unique_supporters =
        1 + (([⟨none, none, some (.ofRat 5), none⟩,
          ⟨some 1, none, some (.ofRat 3), none⟩,
          ⟨none, none, some (.ofRat 2), none⟩] : List Record).filterMap
            Record.supporter_id).dedup.length ∧
      (lookupS [((none : Option Nat), (⟨"Supporter None", 7, 2⟩ : SupporterData)),
          (some 1, ⟨"Supporter 1", 3, 1⟩)] none).map SupporterData.count =
        some (([⟨none, none, some (.ofRat 5), none⟩,
          ⟨some 1, none, some (.ofRat 3), none⟩,
          ⟨none, none, some (.ofRat 2), none⟩] : List Record).countP
            (fun r => decide (r.supporter_id = none))) ∧
      ((sortDesc [((none : Option Nat), (⟨"Supporter None", 7, 2⟩ : SupporterData)),
          (some 1, ⟨"Supporter 1", 3, 1⟩)]).take 10).countP
          (fun x => decide (x.1 = none)) ≤ 1 := by
  have h : analyze_donations [⟨none, none, some (.ofRat 5), none⟩,
      ⟨some 1, none, some (.ofRat 3), none⟩,
      ⟨none, none, some (.ofRat 2), none⟩] =
      some ⟨3, 2, 3, 10, 10 / 3,
        [⟨"Supporter None", 7, 2⟩, ⟨"Supporter 1", 3, 1⟩], []⟩ := by
    norm_num [analyze_donations, pass1Aux, pass2Aux, addDaily, addSupporter,
      floatAmount, placeholderName, sortDesc, insertDesc, projTop]
    all_goals decide
  have hp : pass2Aux [⟨none, none, some (.ofRat 5), none⟩,
      ⟨some 1, none, some (.ofRat 3), none⟩,
      ⟨none, none, some (.ofRat 2), none⟩] [] =
      some [(none, ⟨"Supporter None", 7, 2⟩), (some 1, ⟨"Supporter 1", 3, 1⟩)] := by
    norm_num [pass2Aux, addSupporter, floatAmount, placeholderName]
    all_goals decide
  have hm : 0 < ([⟨none, none, some (.ofRat 5), none⟩,
      ⟨some 1, none, some (.ofRat 3), none⟩,
      ⟨none, none, some (.ofRat 2), none⟩] : List Record).countP
        (fun r => decide (r.supporter_id = none)) := by decide
  obtain ⟨h1, ⟨d, hl, hcnt, htot⟩, h3⟩ := C10_missing_ids h hp hm
  refine ⟨h, hp, h1, ?_, h3⟩
  rw [hl, Option.map_some', hcnt]
